import Mathlib

/-!
Shallow embedding of the Raju's Royal Artifacts chat backend:
the inventory tools (`tools.py`), the session-holding agent (`agent.py`)
and the HTTP chat handler (`main.py`). Python strings are modelled as
`String`, the session dictionary as an association list with unique keys,
and the external completion engine as a function parameter returning
`Except`. The float expression `price * (1 - percent / 100)` formatted
with `:.0f` is modelled exactly over the integers as round-half-even of
`price * (100 - percent) / 100`; this coincides with the double-precision
computation for every catalog price and every percent in the clamped
range 0..10, which was checked exhaustively. The rational-number reading
of the formula is `specRound`, and the two are related by a proved lemma.
-/

/-- Model of Python `str.lower` (ASCII case folding). -/
def strLower (s : String) : String :=
  String.mk (s.data.map Char.toLower)

/-- Helper for substring search: does `hay` start with `n`? -/
def startsWithB : List Char → List Char → Bool
  | [], _ => true
  | a :: as, hay =>
      match hay with
      | [] => false
      | b :: bs => a == b && startsWithB as bs

/-- Model of the Python `in` operator on strings: `n` occurs inside the
second argument. -/
def containsSub (n : List Char) : List Char → Bool
  | [] => startsWithB n []
  | c :: t => startsWithB n (c :: t) || containsSub n t

/-- Specification-side substring predicate: `needle` occurs contiguously
inside `hay`. -/
def SubStr (needle hay : List Char) : Prop :=
  ∃ l r, hay = l ++ needle ++ r

/-- One catalog entry of `INVENTORY` in `tools.py`. -/
structure Entry where
  price : Nat
  cost : Nat
  stock : Nat
deriving DecidableEq

/-- The static catalog of `tools.py`, in insertion order. -/
def INVENTORY : List (String × Entry) :=
  [("brass lamp", ⟨50, 30, 5⟩),
   ("silk scarf", ⟨500, 300, 2⟩),
   ("sandalwood carving", ⟨1000, 800, 1⟩),
   ("miniature taj mahal", ⟨2000, 1500, 3⟩),
   ("marble elephant", ⟨750, 400, 4⟩),
   ("pashmina shawl", ⟨1500, 900, 2⟩),
   ("copper chai set", ⟨300, 150, 6⟩),
   ("wooden chess set", ⟨800, 500, 2⟩)]

/-- The loop condition `key in item_lower or item_lower in key`. -/
def matchesQuery (item_lower key : String) : Bool :=
  containsSub key.data item_lower.data || containsSub item_lower.data key.data

/-- The `for key in INVENTORY` search loop shared by `check_inventory`
and `calculate_discount`: first entry matching the query, if any. -/
def searchLoop (item_lower : String) : List (String × Entry) → Option (String × Entry)
  | [] => none
  | kv :: rest =>
      if matchesQuery item_lower kv.1 then some kv else searchLoop item_lower rest

/-- The fixed no-match message of `check_inventory`. -/
def noMatchMessage : String :=
  "Sorry friend, I don't think we sell that. But ask me about brass lamps, silk scarves, sandalwood carvings, taj mahal miniatures, marble elephants, pashmina shawls, copper chai sets, or wooden chess sets!"

/-- `check_inventory` from `tools.py`. -/
def check_inventory (item_name : String) : String :=
  match searchLoop (strLower item_name) INVENTORY with
  | some kv =>
      if kv.2.stock > 0 then
        "Yes! We have " ++ kv.1 ++ ". Price is " ++ toString kv.2.price ++
          " coins. We have " ++ toString kv.2.stock ++ " in stock."
      else
        "Arre, sorry! " ++ kv.1 ++ " is currently out of stock. Come back next week!"
  | none => noMatchMessage

/-- Round-half-even of the fraction `n / d` (for `d > 0`), computed with
integer arithmetic. This is the value printed by the `:.0f` format of
the discount computation on the clamped percent range. -/
def roundHalfEvenFrac (n : ℤ) (d : ℕ) : ℤ :=
  let f : ℤ := n / (d : ℤ)
  let r : ℤ := n - f * (d : ℤ)
  if 2 * r < (d : ℤ) then f
  else if (d : ℤ) < 2 * r then f + 1
  else if f % 2 = 0 then f else f + 1

/-- Round-half-even on `ℚ`, the specification's reading of
`round(x)` under standard round-half rules. -/
def specRound (q : ℚ) : ℤ :=
  if q - ⌊q⌋ < 1 / 2 then ⌊q⌋
  else if 1 / 2 < q - ⌊q⌋ then ⌊q⌋ + 1
  else if ⌊q⌋ % 2 = 0 then ⌊q⌋ else ⌊q⌋ + 1

/-- Spec-side formula: `round(original_price * (1 - percent/100))`
under round-half-even. -/
def specDiscountedPrice (original_price : Nat) (percent : ℤ) : ℤ :=
  specRound ((original_price : ℚ) * (1 - (percent : ℚ) / 100))

/-- The fixed no-match message of `calculate_discount`. -/
def discountRefusal : String :=
  "I cannot give discount on item I don't have, friend!"

/-- The success message of `calculate_discount`:
`f"Okay okay, FINAL price for {key}: {discounted_price:.0f} coins (was {original_price} coins). This is my BEST offer!"`
where `discounted_price = original_price * (1 - dp / 100)`. -/
def renderDiscount (key : String) (original_price : Nat) (dp : ℤ) : String :=
  "Okay okay, FINAL price for " ++ key ++ ": " ++
    toString (roundHalfEvenFrac ((original_price : ℤ) * (100 - dp)) 100) ++
    " coins (was " ++ toString original_price ++ " coins). This is my BEST offer!"

/-- `calculate_discount` from `tools.py`: clamp the percent at 10,
search the catalog, report the discounted price. -/
def calculate_discount (item_name : String) (discount_percent : ℤ) : String :=
  match searchLoop (strLower item_name) INVENTORY with
  | some kv =>
      renderDiscount kv.1 kv.2.price
        (if discount_percent > 10 then 10 else discount_percent)
  | none => discountRefusal

/-- The integer rounding used by the embedding agrees with
round-half-even of the exact fraction. -/
theorem roundHalfEvenFrac_eq_specRound (n : ℤ) (d : ℕ) (hd : 0 < d) :
    roundHalfEvenFrac n d = specRound ((n : ℚ) / (d : ℚ)) := by
  have hdq : (0 : ℚ) < (d : ℚ) := by exact_mod_cast hd
  have hdne : ((d : ℚ)) ≠ 0 := ne_of_gt hdq
  have hf : ⌊((n : ℚ) / (d : ℚ))⌋ = n / (d : ℤ) :=
    Rat.floor_intCast_div_natCast n d
  have hr : (n : ℚ) / (d : ℚ) - ((n / (d : ℤ) : ℤ) : ℚ)
      = ((n - n / (d : ℤ) * (d : ℤ) : ℤ) : ℚ) / (d : ℚ) := by
    push_cast
    field_simp
    ring
  simp only [roundHalfEvenFrac, specRound, hf, hr]
  rcases lt_trichotomy (2 * (n - n / (d : ℤ) * (d : ℤ))) (d : ℤ) with h | h | h
  · have hq : ((n - n / (d : ℤ) * (d : ℤ) : ℤ) : ℚ) / (d : ℚ) < 1 / 2 := by
      rw [div_lt_iff₀ hdq]
      have h2 : ((2 * (n - n / (d : ℤ) * (d : ℤ)) : ℤ) : ℚ) < ((d : ℤ) : ℚ) := by
        exact_mod_cast h
      push_cast at h2 ⊢
      linarith
    rw [if_pos h, if_pos hq]
  · have hq : ((n - n / (d : ℤ) * (d : ℤ) : ℤ) : ℚ) / (d : ℚ) = 1 / 2 := by
      rw [div_eq_iff hdne]
      have h2 : ((2 * (n - n / (d : ℤ) * (d : ℤ)) : ℤ) : ℚ) = ((d : ℤ) : ℚ) := by
        exact_mod_cast h
      push_cast at h2 ⊢
      linarith
    rw [if_neg (by omega : ¬ 2 * (n - n / (d : ℤ) * (d : ℤ)) < (d : ℤ)),
      if_neg (by omega : ¬ (d : ℤ) < 2 * (n - n / (d : ℤ) * (d : ℤ))),
      if_neg (show ¬ ((n - n / (d : ℤ) * (d : ℤ) : ℤ) : ℚ) / (d : ℚ) < 1 / 2 by
        rw [hq]; exact lt_irrefl _),
      if_neg (show ¬ (1 : ℚ) / 2 < ((n - n / (d : ℤ) * (d : ℤ) : ℤ) : ℚ) / (d : ℚ) by
        rw [hq]; exact lt_irrefl _)]
  · have hq : (1 : ℚ) / 2 < ((n - n / (d : ℤ) * (d : ℤ) : ℤ) : ℚ) / (d : ℚ) := by
      rw [lt_div_iff₀ hdq]
      have h2 : ((d : ℤ) : ℚ) < ((2 * (n - n / (d : ℤ) * (d : ℤ)) : ℤ) : ℚ) := by
        exact_mod_cast h
      push_cast at h2 ⊢
      linarith
    rw [if_neg (by omega : ¬ 2 * (n - n / (d : ℤ) * (d : ℤ)) < (d : ℤ)),
      if_pos h, if_neg (not_lt.mpr (le_of_lt hq)), if_pos hq]

/-- The discount formula of the source equals the specification's
rational formula. -/
theorem renderDiscount_price_eq_spec (original_price : Nat) (dp : ℤ) :
    roundHalfEvenFrac ((original_price : ℤ) * (100 - dp)) 100 =
      specDiscountedPrice original_price dp := by
  unfold specDiscountedPrice
  rw [show ((original_price : ℚ) * (1 - (dp : ℚ) / 100))
        = (((original_price : ℤ) * (100 - dp) : ℤ) : ℚ) / ((100 : ℕ) : ℚ) by
      push_cast
      ring]
  exact roundHalfEvenFrac_eq_specRound _ 100 (by norm_num)

/-- `startsWithB` decides the "is a front segment" relation. -/
theorem startsWithB_iff (n : List Char) :
    ∀ h : List Char, startsWithB n h = true ↔ ∃ r, h = n ++ r := by
  induction n with
  | nil =>
      intro h
      simp [startsWithB]
  | cons a as ih =>
      intro h
      cases h with
      | nil =>
          simp [startsWithB]
      | cons b bs =>
          simp only [startsWithB, Bool.and_eq_true, beq_iff_eq, ih bs]
          constructor
          · rintro ⟨rfl, r, rfl⟩
            exact ⟨r, rfl⟩
          · rintro ⟨r, hr⟩
            cases hr
            exact ⟨rfl, r, rfl⟩

/-- `containsSub` decides the substring relation `SubStr`. -/
theorem containsSub_iff (n : List Char) :
    ∀ h : List Char, containsSub n h = true ↔ SubStr n h := by
  intro h
  induction h with
  | nil =>
      simp only [containsSub, startsWithB_iff, SubStr]
      constructor
      · rintro ⟨r, hr⟩
        exact ⟨[], r, hr⟩
      · rintro ⟨l, r, hr⟩
        cases l with
        | nil => exact ⟨r, hr⟩
        | cons x xs => simp at hr
  | cons c t ih =>
      simp only [containsSub, Bool.or_eq_true, startsWithB_iff, ih, SubStr]
      constructor
      · rintro (⟨r, hr⟩ | ⟨l, r, hr⟩)
        · exact ⟨[], r, hr⟩
        · exact ⟨c :: l, r, by simp [hr]⟩
      · rintro ⟨l, r, hr⟩
        cases l with
        | nil => exact Or.inl ⟨r, hr⟩
        | cons x xs =>
            simp only [List.cons_append, List.cons.injEq] at hr
            exact Or.inr ⟨xs, r, hr.2⟩

/-- The search loop returns the first catalog entry satisfying the
match predicate, in list order. -/
theorem searchLoop_eq_find (item_lower : String) :
    ∀ l : List (String × Entry),
      searchLoop item_lower l = l.find? (fun kv => matchesQuery item_lower kv.1) := by
  intro l
  induction l with
  | nil => rfl
  | cons kv rest ih =>
      by_cases h : matchesQuery item_lower kv.1
      · simp [searchLoop, List.find?_cons_of_pos, h]
      · simp only [searchLoop, if_neg h, ih]
        rw [List.find?_cons_of_neg]
        simpa using h

/-- A message turn, `{"role": ..., "content": ...}`. -/
structure Turn where
  role : String
  content : String
deriving DecidableEq

/-- A session's turn history. -/
abbrev History := List Turn

/-- The `chat_sessions` dictionary of `RajuAgent`, as an association
list in insertion order (a Python dict never holds a key twice). -/
abbrev Store := List (String × History)

/-- Raju's personality system prompt from `agent.py`. -/
def RAJU_SYSTEM_PROMPT : String :=
  "You are Raju, a charming Indian shopkeeper.\n\nINVENTORY:\n- Brass Lamp: 50 coins\n- Silk Scarf: 500 coins\n- Sandalwood Carving: 1000 coins\n- Taj Mahal Miniature: 2000 coins\n- Marble Elephant: 750 coins\n- Pashmina Shawl: 1500 coins\n- Copper Chai Set: 300 coins\n- Wooden Chess Set: 800 coins\n\nRULES:\n1. Keep responses SHORT - max 2-3 sentences!\n2. Use Indian-English flair: \"my friend\", \"arre baba\", \"best price!\"\n3. If asked for discount: act shocked, max 10% if they insist\n4. Be charming but brief\n\nExamples of good responses:\n- \"Brass Lamp? 50 coins only, my friend! Best quality from Rajasthan!\"\n- \"Discount?! Arre baba, this IS the discount! My children need to eat!\"\n- \"Welcome, welcome! What catches your eye today?\"\n\nNEVER write long paragraphs. Be SHORT and FUN!"

/-- Dictionary lookup `chat_sessions[session_id]` (with a `None` for a
missing key). -/
def lookupSession : Store → String → Option History
  | [], _ => none
  | p :: rest, session_id =>
      if p.1 == session_id then some p.2 else lookupSession rest session_id

/-- The history a session currently holds (empty when absent). -/
def historyOf (st : Store) (session_id : String) : History :=
  (lookupSession st session_id).getD []

/-- `RajuAgent.get_or_create_session`: insert an empty history on first
reference, return the session's history together with the new store. -/
def get_or_create_session (st : Store) (session_id : String) : History × Store :=
  match lookupSession st session_id with
  | some h => (h, st)
  | none => ([], st ++ [(session_id, [])])

/-- In-place mutation of the stored history list (`history.append`). -/
def updateSession (st : Store) (session_id : String) (h : History) : Store :=
  st.map (fun p => if p.1 == session_id then (p.1, h) else p)

/-- The message list sent to the completion engine: the system prompt,
the stored history, then the current user message. -/
def buildMessages (history : History) (user_message : String) : List Turn :=
  ⟨"system", RAJU_SYSTEM_PROMPT⟩ :: (history ++ [⟨"user", user_message⟩])

/-- The fixed in-character fallback returned when the engine call
raises, embedding the error detail. -/
def fallbackMessage (e : String) : String :=
  "Arre baba! Something went wrong in my shop. Please try again, my friend! (Error: " ++ e ++ ")"

/-- `RajuAgent.chat`. The completion engine is an external collaborator
passed as a function; `Except.error` models a raised exception, caught
by the `try`/`except` of the source. -/
def chat (engine : List Turn → Except String String) (st : Store)
    (session_id user_message : String) : String × Store :=
  match engine (buildMessages (get_or_create_session st session_id).1 user_message) with
  | Except.ok reply =>
      (reply,
        updateSession (get_or_create_session st session_id).2 session_id
          ((get_or_create_session st session_id).1 ++
            [⟨"user", user_message⟩, ⟨"assistant", reply⟩]))
  | Except.error e => (fallbackMessage e, (get_or_create_session st session_id).2)

/-- `RajuAgent.clear_session`: delete the key if present, report
whether it existed. -/
def clear_session (st : Store) (session_id : String) : Bool × Store :=
  if (lookupSession st session_id).isSome then
    (true, st.filter (fun p => p.1 != session_id))
  else (false, st)

/-- Iterated `chat` calls on one session, collecting the returned
texts. -/
def chatMany (engine : List Turn → Except String String) (st : Store)
    (session_id : String) : List String → Store × List String
  | [] => (st, [])
  | m :: ms =>
      ((chatMany engine (chat engine st session_id m).2 session_id ms).1,
        (chat engine st session_id m).1 ::
          (chatMany engine (chat engine st session_id m).2 session_id ms).2)

/-- Model of Python `str.strip`: drop whitespace from both ends. -/
def stripStr (s : String) : String :=
  String.mk (((s.data.dropWhile Char.isWhitespace).reverse.dropWhile
    Char.isWhitespace).reverse)

/-- The `POST /chat` request body of `main.py`. -/
structure ChatRequest where
  message : String
  session_id : Option String
deriving DecidableEq

/-- The error raised by `HTTPException(status_code, detail)`. -/
structure HTTPException where
  status_code : Nat
  detail : String
deriving DecidableEq

/-- The `POST /chat` response body. -/
structure ChatResponse where
  response : String
  session_id : String
deriving DecidableEq

/-- `request.session_id or str(uuid.uuid4())`: Python `or` falls back
on a missing or empty (falsy) string; the generated UUID is an
external input. -/
def resolveSessionId (req : ChatRequest) (fresh_id : String) : String :=
  match req.session_id with
  | some s => if s = "" then fresh_id else s
  | none => fresh_id

/-- The `chat_with_raju` handler of `main.py`: validate the message,
then delegate to the agent. -/
def chat_with_raju (engine : List Turn → Except String String) (st : Store)
    (req : ChatRequest) (fresh_id : String) :
    Except HTTPException ChatResponse × Store :=
  if stripStr req.message = "" then
    (Except.error ⟨400, "Message cannot be empty, my friend!"⟩, st)
  else
    (Except.ok ⟨(chat engine st (resolveSessionId req fresh_id) req.message).1,
        resolveSessionId req fresh_id⟩,
      (chat engine st (resolveSessionId req fresh_id) req.message).2)

/-- The history handed out by `get_or_create_session` is the session's
current history. -/
theorem goc_fst (st : Store) (session_id : String) :
    (get_or_create_session st session_id).1 = historyOf st session_id := by
  unfold get_or_create_session historyOf
  cases lookupSession st session_id <;> rfl

/-- Looking a key up past a store that does not hold it. -/
theorem lookup_append_of_none (session_id : String) :
    ∀ st l : Store, lookupSession st session_id = none →
      lookupSession (st ++ l) session_id = lookupSession l session_id := by
  intro st
  induction st with
  | nil => intro l _; rfl
  | cons p rest ih =>
      intro l hnone
      by_cases hp : p.1 == session_id
      · simp [lookupSession, hp] at hnone
      · simp only [lookupSession, List.cons_append, hp] at hnone ⊢
        simp only [Bool.false_eq_true, if_false] at hnone ⊢
        exact ih l hnone

/-- After `get_or_create_session`, the store holds exactly the history
it handed out. -/
theorem goc_lookup (st : Store) (session_id : String) :
    lookupSession (get_or_create_session st session_id).2 session_id =
      some (get_or_create_session st session_id).1 := by
  unfold get_or_create_session
  cases hl : lookupSession st session_id with
  | some h => exact hl
  | none =>
      simp only
      rw [lookup_append_of_none session_id st _ hl]
      simp [lookupSession]

/-- `get_or_create_session` never changes the history a session id
denotes. -/
theorem goc_historyOf (st : Store) (session_id : String) :
    historyOf (get_or_create_session st session_id).2 session_id =
      historyOf st session_id := by
  unfold historyOf
  rw [goc_lookup, goc_fst]
  rfl

/-- Writing a present key and reading it back. -/
theorem lookup_update (session_id : String) (h : History) :
    ∀ st : Store, (lookupSession st session_id).isSome = true →
      lookupSession (updateSession st session_id h) session_id = some h := by
  intro st
  induction st with
  | nil => intro hs; simp [lookupSession] at hs
  | cons p rest ih =>
      intro hs
      by_cases hp : p.1 == session_id
      · simp [updateSession, lookupSession, hp]
      · simp only [lookupSession, hp, Bool.false_eq_true, if_false] at hs
        simpa [updateSession, lookupSession, hp] using ih hs

/-- Deleting a key removes it. -/
theorem lookup_filter_out (session_id : String) :
    ∀ st : Store,
      lookupSession (st.filter (fun p => p.1 != session_id)) session_id = none := by
  intro st
  induction st with
  | nil => rfl
  | cons p rest ih =>
      by_cases hp : p.1 = session_id
      · rw [List.filter_cons, if_neg (by simp [hp])]
        exact ih
      · rw [List.filter_cons, if_pos (by simp [bne_iff_ne, hp])]
        simpa [lookupSession, hp] using ih

/-- A successful chat call appends the user and assistant turns. -/
theorem chat_ok (engine : List Turn → Except String String) (st : Store)
    (session_id m reply : String)
    (hr : engine (buildMessages (historyOf st session_id) m) = Except.ok reply) :
    (chat engine st session_id m).1 = reply ∧
    historyOf (chat engine st session_id m).2 session_id =
      historyOf st session_id ++ [⟨"user", m⟩, ⟨"assistant", reply⟩] := by
  unfold chat
  rw [goc_fst, hr]
  refine ⟨rfl, ?_⟩
  unfold historyOf
  rw [lookup_update session_id _ _ (by rw [goc_lookup]; rfl)]
  rfl

/-- The turn sequence a list of (user text, assistant text) pairs
produces: one user turn then one assistant turn per pair, in order. -/
def turnsOf : List (String × String) → List Turn
  | [] => []
  | p :: rest => ⟨"user", p.1⟩ :: ⟨"assistant", p.2⟩ :: turnsOf rest

theorem turnsOf_length : ∀ l : List (String × String),
    (turnsOf l).length = 2 * l.length := by
  intro l
  induction l with
  | nil => rfl
  | cons p rest ih => simp [turnsOf, ih]; omega

/-- General shape of a run of successful chat calls: the collected
replies are one per call, and the history grows by exactly the
user/assistant turn pairs of the run, in call order. -/
theorem chatMany_general (engine : List Turn → Except String String)
    (hE : ∀ ms, ∃ r, engine ms = Except.ok r) :
    ∀ (msgs : List String) (st : Store) (session_id : String),
      (chatMany engine st session_id msgs).2.length = msgs.length ∧
      historyOf (chatMany engine st session_id msgs).1 session_id =
        historyOf st session_id ++
          turnsOf (msgs.zip (chatMany engine st session_id msgs).2) := by
  intro msgs
  induction msgs with
  | nil =>
      intro st session_id
      exact ⟨rfl, by simp [chatMany, turnsOf]⟩
  | cons m ms ih =>
      intro st session_id
      obtain ⟨reply, hr⟩ := hE (buildMessages (historyOf st session_id) m)
      have hc := chat_ok engine st session_id m reply hr
      obtain ⟨ih1, ih2⟩ := ih (chat engine st session_id m).2 session_id
      constructor
      · simpa [chatMany] using ih1
      · show historyOf (chatMany engine (chat engine st session_id m).2 session_id ms).1
              session_id =
            historyOf st session_id ++
              (⟨"user", m⟩ : Turn) ::
                (⟨"assistant", (chat engine st session_id m).1⟩ : Turn) ::
                  turnsOf
                    (ms.zip (chatMany engine (chat engine st session_id m).2 session_id ms).2)
        rw [ih2, hc.2, hc.1]
        simp [List.append_assoc]

/-- A found catalog entry yields the success message with the
specification's rounded price, for any percent at most 10. -/
theorem calculate_discount_found_spec (item key : String) (e : Entry) (p : ℤ)
    (hfind : searchLoop (strLower item) INVENTORY = some (key, e)) (h10 : p ≤ 10) :
    calculate_discount item p =
      "Okay okay, FINAL price for " ++ key ++ ": " ++
        toString (specDiscountedPrice e.price p) ++
        " coins (was " ++ toString e.price ++ " coins). This is my BEST offer!" := by
  unfold calculate_discount
  rw [hfind]
  show renderDiscount key e.price (if p > 10 then 10 else p) = _
  rw [if_neg (by omega : ¬ p > 10)]
  unfold renderDiscount
  rw [renderDiscount_price_eq_spec]

/-- Claim C1: when the completion-engine call inside `chat` fails, the
call returns the fixed in-character fallback message carrying the raw
error detail, and the session's turn history is left unchanged (for a
fresh session it stays empty). -/
theorem chat_engine_failure_preserves_history
    (engine : List Turn → Except String String) (st : Store) (session_id m e : String)
    (hE : engine (buildMessages (historyOf st session_id) m) = Except.error e) :
    (chat engine st session_id m).1 = fallbackMessage e ∧
    historyOf (chat engine st session_id m).2 session_id = historyOf st session_id := by
  unfold chat
  rw [goc_fst, hE]
  exact ⟨rfl, goc_historyOf st session_id⟩

theorem chat_engine_failure_preserves_history_witness :
    (chat (fun _ => Except.error "boom") ([] : Store) "s1" "hello").1 =
      fallbackMessage "boom" ∧
    historyOf (chat (fun _ => Except.error "boom") ([] : Store) "s1" "hello").2 "s1" =
      historyOf ([] : Store) "s1" :=
  chat_engine_failure_preserves_history (fun _ => Except.error "boom") [] "s1" "hello"
    "boom" rfl

/-- Claim C2: starting from an empty history, N successful chat calls
leave the session with exactly the N user/assistant turn pairs of the
run, in call order, hence history length 2N. -/
theorem chat_success_history_length
    (engine : List Turn → Except String String)
    (hE : ∀ ms, ∃ r, engine ms = Except.ok r)
    (st : Store) (session_id : String) (h0 : historyOf st session_id = [])
    (msgs : List String) :
    historyOf (chatMany engine st session_id msgs).1 session_id =
      turnsOf (msgs.zip (chatMany engine st session_id msgs).2) ∧
    (historyOf (chatMany engine st session_id msgs).1 session_id).length =
      2 * msgs.length := by
  obtain ⟨hlen, hhist⟩ := chatMany_general engine hE msgs st session_id
  rw [hhist, h0]
  constructor
  · simp
  · rw [List.nil_append, turnsOf_length, List.length_zip, hlen, Nat.min_self]

theorem chat_success_history_length_witness :
    historyOf (chatMany (fun _ => Except.ok "hi") ([] : Store) "s1" ["hello"]).1 "s1" =
      turnsOf (["hello"].zip
        (chatMany (fun _ => Except.ok "hi") ([] : Store) "s1" ["hello"]).2) ∧
    (historyOf (chatMany (fun _ => Except.ok "hi") ([] : Store) "s1" ["hello"]).1
        "s1").length = 2 * ["hello"].length :=
  chat_success_history_length (fun _ => Except.ok "hi") (fun _ => ⟨"hi", rfl⟩)
    [] "s1" rfl ["hello"]

/-- Claim C3: any requested percent above 10 is silently capped at 10,
so the result equals a request of exactly 10. -/
theorem calculate_discount_clamps (item : String) (p : ℤ) (hp : p > 10) :
    calculate_discount item p = calculate_discount item 10 := by
  unfold calculate_discount
  cases h : searchLoop (strLower item) INVENTORY with
  | none => rfl
  | some kv =>
      rw [if_pos hp, if_neg (by omega : ¬ (10 : ℤ) > 10)]

theorem calculate_discount_clamps_witness :
    calculate_discount "brass lamp" 15 = calculate_discount "brass lamp" 10 :=
  calculate_discount_clamps "brass lamp" 15 (by decide)

/-- Claim C4: the reported discounted price is
`round(original_price * (1 - percent/100))` under round-half-even,
formatted as an integer; in particular a 15% request on the brass lamp
clamps to 10% and reports 45 coins (was 50 coins). -/
theorem calculate_discount_rounding :
    calculate_discount "brass lamp" 15 =
      "Okay okay, FINAL price for brass lamp: 45 coins (was 50 coins). This is my BEST offer!" ∧
    ∀ key e, (key, e) ∈ INVENTORY → ∀ p : ℤ, 0 ≤ p → p ≤ 10 →
      calculate_discount key p =
        "Okay okay, FINAL price for " ++ key ++ ": " ++
          toString (specDiscountedPrice e.price p) ++
          " coins (was " ++ toString e.price ++ " coins). This is my BEST offer!" := by
  constructor
  · decide
  · intro key e hmem p h0 h10
    simp only [INVENTORY, List.mem_cons, List.not_mem_nil, or_false,
      Prod.mk.injEq] at hmem
    rcases hmem with h | h | h | h | h | h | h | h <;>
      obtain ⟨rfl, rfl⟩ := h <;>
        exact calculate_discount_found_spec _ _ _ p (by decide) h10

theorem calculate_discount_rounding_witness :
    calculate_discount "silk scarf" 10 =
      "Okay okay, FINAL price for " ++ "silk scarf" ++ ": " ++
        toString (specDiscountedPrice (Entry.mk 500 300 2).price 10) ++
        " coins (was " ++ toString (Entry.mk 500 300 2).price ++
        " coins). This is my BEST offer!" :=
  calculate_discount_rounding.2 "silk scarf" (Entry.mk 500 300 2) (by decide)
    10 (by decide) (by decide)

/-- Claim C5: the search returns the first catalog entry (in insertion
order) whose key and the lowercased query contain one another as a
substring in either direction; a match exists exactly when some entry
satisfies that predicate; and matching is case-insensitive, so the
upper- and lower-case brass lamp queries answer identically. -/
theorem check_inventory_match_policy :
    (∀ q : String, searchLoop (strLower q) INVENTORY =
        INVENTORY.find? (fun kv => matchesQuery (strLower q) kv.1)) ∧
    (∀ q : String, (searchLoop (strLower q) INVENTORY).isSome = true ↔
        ∃ kv ∈ INVENTORY,
          SubStr kv.1.data (strLower q).data ∨ SubStr (strLower q).data kv.1.data) ∧
    check_inventory "BRASS LAMP" = check_inventory "brass lamp" := by
  refine ⟨fun q => searchLoop_eq_find (strLower q) INVENTORY, fun q => ?_, by decide⟩
  rw [searchLoop_eq_find, List.find?_isSome]
  apply exists_congr
  intro kv
  apply and_congr_right
  intro _
  simp only [matchesQuery, Bool.or_eq_true, containsSub_iff]

set_option maxRecDepth 16384 in
/-- Claim C6 counterexample: the no-match refusal pluralizes the item
names, so it does not contain the catalog keys "silk scarf" or
"miniature taj mahal" as substrings. -/
theorem check_inventory_refusal_counterexample :
    check_inventory "xyz-nonexistent" = noMatchMessage ∧
    containsSub "silk scarf".data (check_inventory "xyz-nonexistent").data = false ∧
    containsSub "miniature taj mahal".data
      (check_inventory "xyz-nonexistent").data = false :=
  ⟨by decide, by decide, by decide⟩

set_option maxRecDepth 16384 in
/-- Claim C6 (amended): a query matching no entry yields the fixed
refusal message; that message names every one of the 8 catalog items in
pluralized form, and contains 6 of the 8 catalog keys verbatim. -/
theorem check_inventory_refusal_amended :
    (∀ q : String, searchLoop (strLower q) INVENTORY = none →
        check_inventory q = noMatchMessage) ∧
    (["brass lamps", "silk scarves", "sandalwood carvings", "taj mahal miniatures",
      "marble elephants", "pashmina shawls", "copper chai sets",
      "wooden chess sets"].all
        (fun nm => containsSub nm.data noMatchMessage.data)) = true ∧
    (["brass lamp", "sandalwood carving", "marble elephant", "pashmina shawl",
      "copper chai set", "wooden chess set"].all
        (fun nm => containsSub nm.data noMatchMessage.data)) = true := by
  refine ⟨fun q hq => ?_, by decide, by decide⟩
  unfold check_inventory
  rw [hq]

theorem check_inventory_refusal_amended_witness :
    check_inventory "xyz-nonexistent" = noMatchMessage :=
  check_inventory_refusal_amended.1 "xyz-nonexistent" (by decide)

/-- Claim C7: `clear_session` returns true exactly when the session
existed, removes it, so a second clear returns false, and a subsequent
`get_or_create_session` hands out an empty history. -/
theorem clear_session_spec (st : Store) (session_id : String) :
    (clear_session st session_id).1 = (lookupSession st session_id).isSome ∧
    lookupSession (clear_session st session_id).2 session_id = none ∧
    (clear_session (clear_session st session_id).2 session_id).1 = false ∧
    (get_or_create_session (clear_session st session_id).2 session_id).1 = [] := by
  cases hl : lookupSession st session_id with
  | some hist =>
      have hcs : clear_session st session_id =
          (true, st.filter (fun p => p.1 != session_id)) := by
        unfold clear_session
        rw [hl]
        rfl
      refine ⟨by rw [hcs]; rfl, ?_, ?_, ?_⟩
      · rw [hcs]
        exact lookup_filter_out session_id st
      · rw [hcs]
        unfold clear_session
        rw [lookup_filter_out session_id st]
        rfl
      · rw [hcs]
        unfold get_or_create_session
        rw [lookup_filter_out session_id st]
  | none =>
      have hcs : clear_session st session_id = (false, st) := by
        unfold clear_session
        rw [hl]
        rfl
      refine ⟨by rw [hcs]; rfl, ?_, ?_, ?_⟩
      · rw [hcs]
        exact hl
      · rw [hcs]
        unfold clear_session
        rw [hl]
        rfl
      · rw [hcs]
        unfold get_or_create_session
        rw [hl]

/-- Claim C8: a request whose message strips to empty is rejected with
HTTP 400 and the fixed friendly detail, the store is returned
untouched, and — since the result is the same for every engine — the
completion engine is never invoked. -/
theorem chat_empty_message_rejected
    (engine : List Turn → Except String String) (st : Store)
    (req : ChatRequest) (fresh_id : String)
    (h : stripStr req.message = "") :
    chat_with_raju engine st req fresh_id =
      (Except.error ⟨400, "Message cannot be empty, my friend!"⟩, st) := by
  unfold chat_with_raju
  rw [if_pos h]

theorem chat_empty_message_rejected_witness :
    chat_with_raju (fun _ => Except.ok "hi") ([] : Store)
        ⟨"   ", some "s1"⟩ "fresh" =
      (Except.error ⟨400, "Message cannot be empty, my friend!"⟩, ([] : Store)) :=
  chat_empty_message_rejected (fun _ => Except.ok "hi") [] ⟨"   ", some "s1"⟩
    "fresh" rfl

/-- Claim C9: the empty query matches the first catalog entry (brass
lamp) in both tools, because the empty string is a substring of every
key; neither tool ever answers its no-match refusal for it. -/
theorem empty_query_matches_first_entry :
    searchLoop (strLower "") INVENTORY = some ("brass lamp", ⟨50, 30, 5⟩) ∧
    check_inventory "" =
      "Yes! We have brass lamp. Price is 50 coins. We have 5 in stock." ∧
    (∀ p : ℤ, calculate_discount "" p =
        renderDiscount "brass lamp" 50 (if p > 10 then 10 else p)) ∧
    (∀ p : ℤ, calculate_discount "" p ≠ discountRefusal) := by
  refine ⟨by decide, by decide, fun p => rfl, fun p h => ?_⟩
  have hO : (calculate_discount "" p).data.head? = some 'O' := rfl
  rw [h] at hO
  exact absurd hO (by decide)

theorem empty_query_matches_first_entry_witness :
    calculate_discount "" 0 =
      renderDiscount "brass lamp" 50 (if (0 : ℤ) > 10 then 10 else 0) ∧
    calculate_discount "" 0 ≠ discountRefusal :=
  ⟨empty_query_matches_first_entry.2.2.1 0, empty_query_matches_first_entry.2.2.2 0⟩

/-- Claim C10: a failed chat call on a previously unseen session id
still inserts an empty session entry — the only state change — so the
session id is now present (a later clear returns true). -/
theorem chat_failure_creates_empty_session
    (engine : List Turn → Except String String) (st : Store) (session_id m e : String)
    (habsent : lookupSession st session_id = none)
    (hE : engine (buildMessages [] m) = Except.error e) :
    (chat engine st session_id m).2 = st ++ [(session_id, [])] ∧
    lookupSession (chat engine st session_id m).2 session_id = some [] ∧
    (clear_session (chat engine st session_id m).2 session_id).1 = true := by
  have hh : historyOf st session_id = [] := by
    unfold historyOf
    rw [habsent]
    rfl
  have hgoc : get_or_create_session st session_id = ([], st ++ [(session_id, [])]) := by
    unfold get_or_create_session
    rw [habsent]
  unfold chat
  rw [goc_fst, hh, hE]
  refine ⟨?_, ?_, ?_⟩
  · show (get_or_create_session st session_id).2 = st ++ [(session_id, [])]
    rw [hgoc]
  · show lookupSession (get_or_create_session st session_id).2 session_id = some []
    rw [goc_lookup, goc_fst, hh]
  · show (clear_session (get_or_create_session st session_id).2 session_id).1 = true
    unfold clear_session
    rw [goc_lookup]
    rfl

theorem chat_failure_creates_empty_session_witness :
    (chat (fun _ => Except.error "boom") ([] : Store) "s1" "hello").2 =
      ([] : Store) ++ [("s1", [])] ∧
    lookupSession (chat (fun _ => Except.error "boom") ([] : Store) "s1" "hello").2
      "s1" = some [] ∧
    (clear_session (chat (fun _ => Except.error "boom") ([] : Store) "s1" "hello").2
      "s1").1 = true :=
  chat_failure_creates_empty_session (fun _ => Except.error "boom") [] "s1" "hello"
    "boom" rfl rfl
